import Mathlib

/-!
Shallow embedding of the `infinitecanvas` web component
(`src/infinitecanvas.d.ts`, which bundles the TypeScript declarations, the
JavaScript implementation of class `InfiniteCanvas`, and the README).

Modelling choices:
* JavaScript numbers are modelled as rationals (`ℚ`); the claims under study
  are exact affine identities stated "to floating-point tolerance", which hold
  exactly over `ℚ`.
* The `vec2` value type is imported from the external `vec2` package, whose
  source is not in this repository; its operations are modelled from the spec
  (§3 Data model: set, translate, add, subtract, scale-by-scalar).
* In-place mutation (`point.sub(...).scale(...)` mutates its receiver) is
  rendered functionally: every operation returns the new value, and the
  component's event handlers are state transformers `ICState → ICState`.
  Aliasing effects the claims care about (the `cursor` field being overwritten
  in place) are captured by storing the resulting vector back into the state
  field the source mutates.
* `requestAnimationFrame`/`update()` only write a CSS transform string; they
  read state and never mutate `scale`/`position`/`screen_position`, so they
  are not part of the state model.
-/

/-- Modelled from the spec (§3): the external `vec2` package's 2D point/vector
value type `{x: float, y: float}`. -/
structure vec2 where
  x : ℚ
  y : ℚ
deriving DecidableEq, Repr

namespace vec2

/-- Modelled from the spec (§3): `set` overwrites both components. -/
def set (_ : vec2) (nx ny : ℚ) : vec2 := ⟨nx, ny⟩

/-- Modelled from the spec (§3): `translate` adds per-component deltas. -/
def translate (v : vec2) (dx dy : ℚ) : vec2 := ⟨v.x + dx, v.y + dy⟩

/-- Modelled from the spec (§3): componentwise vector addition. -/
def add (v w : vec2) : vec2 := ⟨v.x + w.x, v.y + w.y⟩

/-- Modelled from the spec (§3): componentwise vector subtraction. -/
def sub (v w : vec2) : vec2 := ⟨v.x - w.x, v.y - w.y⟩

/-- Modelled from the spec (§3): scale by a scalar. -/
def scale (v : vec2) (s : ℚ) : vec2 := ⟨v.x * s, v.y * s⟩

end vec2

/-- The state of an `InfiniteCanvas` instance: the `__props` internals
(`size`, `screen_position`, `scale`, `position`) together with the public
instance fields `point`, `cursor`, `zoomFactor` set in the constructor, and
the plain `size` instance property (`this.size = {width, height}`) assigned
in `connectedCallback` (absent until then, hence an `Option`). -/
structure ICState where
  size : vec2
  screen_position : vec2
  scale : ℚ
  position : vec2
  point : vec2
  cursor : vec2
  zoomFactor : ℚ
  size_attr : Option (ℚ × ℚ)
deriving DecidableEq, Repr

namespace InfiniteCanvas

/-- The constructor's state initialization: `__props = {size: (0,0),
screen_position: (0,0), scale: 1, position: (0,0)}`, `point = (0,0)`,
`cursor = (0,0)`, `zoomFactor = 1.1`. -/
def initState : ICState :=
  { size := ⟨0, 0⟩
    screen_position := ⟨0, 0⟩
    scale := 1
    position := ⟨0, 0⟩
    point := ⟨0, 0⟩
    cursor := ⟨0, 0⟩
    zoomFactor := 11/10
    size_attr := none }

/-- `screenToCanvas(point)`: `point.sub(this.__props.screen_position)
.sub(this.__props.position).scale(1 / this.scale)`. The division is
unguarded in the source; over `ℚ` the total-division convention `1/0 = 0`
stands in for the float blowup at `scale = 0`. -/
def screenToCanvas (st : ICState) (point : vec2) : vec2 :=
  ((point.sub st.screen_position).sub st.position).scale (1 / st.scale)

/-- The property access `this.screen_position` appearing in the source's
`canvasToScreen`: the class keeps the screen origin at
`this.__props.screen_position` and defines no `screen_position` getter or
instance field, so this access evaluates to `undefined`; modelled as `none`. -/
def screen_position_attr (_ : ICState) : Option vec2 := none

/-- `canvasToScreen(point)`: `point.scale(this.scale).add(this.screen_position)
.add(this.__props.position)`. Because `this.screen_position` is `undefined`
(see `screen_position_attr`), the `add` step has no vector to add and the
call cannot produce the documented screen point; the result is `Option`-valued
and is `none` exactly when that access yields `undefined`. -/
def canvasToScreen (st : ICState) (point : vec2) : Option vec2 :=
  (screen_position_attr st).map fun sp => ((point.scale st.scale).add sp).add st.position

/-- Modelled from the spec (§4.1 and §9): `canvasToScreen` as documented,
`result = p * scale + screenOrigin + panOffset`, reading the internal
`__props.screen_position` field — the corrected mapping the spec directs
implementers to use in place of the source's `undefined` access. -/
def canvasToScreen_fixed (st : ICState) (point : vec2) : vec2 :=
  ((point.scale st.scale).add st.screen_position).add st.position

/-- `set position({x, y})`: `this.__props.position.set(x, y)` then a visual
`update()` (no further state change). -/
def setPosition (st : ICState) (x y : ℚ) : ICState :=
  { st with position := st.position.set x y }

/-- `set scale(value)`: `this.__props.scale = value` then a visual `update()`
(no further state change). No clamping or validation. -/
def setScale (st : ICState) (value : ℚ) : ICState :=
  { st with scale := value }

/-- The wheel handler's new-scale computation:
`Math.max(0.1, this.scale * (ev.deltaY > 0 ? 1 / this.zoomFactor : this.zoomFactor))`. -/
def wheelNewScale (st : ICState) (deltaY : ℚ) : ℚ :=
  max (1/10) (st.scale * (if deltaY > 0 then 1 / st.zoomFactor else st.zoomFactor))

/-- The `wheel` event listener: computes `newScale`, converts the cursor
(set in place to `(clientX, clientY)`) to canvas coordinates with the
pre-zoom transform, scales it in place by `(this.scale - newScale)`, adds it
to `__props.position`, and finally assigns `this.scale = newScale` through
the setter. -/
def wheelStep (st : ICState) (deltaY clientX clientY : ℚ) : ICState :=
  let newScale := wheelNewScale st deltaY
  let anchorCanvas := screenToCanvas st (st.cursor.set clientX clientY)
  let cursorScaled := anchorCanvas.scale (st.scale - newScale)
  { st with
    cursor := cursorScaled
    position := st.position.add cursorScaled
    scale := newScale }

/-- The `customDrag` `onmove` callback: `this.__props.position.translate(deltaX,
deltaY)` (the `requestAnimationFrame` flush only rewrites CSS). -/
def dragMove (st : ICState) (deltaX deltaY : ℚ) : ICState :=
  { st with position := st.position.translate deltaX deltaY }

/-- The `customDrag` `onstart` callback: if the event target is not the
element itself it returns `false` without touching state; otherwise it
refreshes `__props.screen_position` from the bounding rectangle's
`(left, top)` and returns `true`. The target comparison `ev.target != this`
is abstracted into the boolean `targetIsSelf`. -/
def dragStart (st : ICState) (targetIsSelf : Bool) (boundsLeft boundsTop : ℚ) :
    ICState × Bool :=
  match targetIsSelf with
  | false => (st, false)
  | true =>
    ({ st with screen_position := st.screen_position.set boundsLeft boundsTop }, true)

/-- Modelled from the spec (§1, §4.3): the external `customdrag` gesture
recognizer, absent from this repository, delivers a start/move stream and
honours the start veto — when `onstart` returns `false` the gesture is not
active and no move callbacks fire; otherwise each move's deltas are fed to
`onmove`. -/
def runDrag (st : ICState) (targetIsSelf : Bool) (boundsLeft boundsTop : ℚ)
    (moves : List (ℚ × ℚ)) : ICState :=
  match dragStart st targetIsSelf boundsLeft boundsTop with
  | (st1, true) => moves.foldl (fun s d => dragMove s d.1 d.2) st1
  | (st1, false) => st1

/-- The `pointermove` listener: `this.cursor.set(ev.clientX, ev.clientY)`
followed by `this.screenToCanvas(this.cursor)` — the in-place conversion
overwrites `cursor` with canvas coordinates. -/
def pointerMove (st : ICState) (clientX clientY : ℚ) : ICState :=
  { st with cursor := screenToCanvas st (st.cursor.set clientX clientY) }

/-- `connectedCallback()`: reads the bounding client rectangle, assigns the
plain instance property `this.size = {width, height}`, and sets
`__props.screen_position` to `(left, top)`. -/
def connectedCallback (st : ICState) (left top width height : ℚ) : ICState :=
  { st with
    size_attr := some (width, height)
    screen_position := st.screen_position.set left top }

end InfiniteCanvas

namespace InfiniteCanvas

/-- Claim C9: a freshly constructed viewport with no events has scale 1,
position (0,0) and screen origin (0,0), and in that state
`screenToCanvas(p) = p - screenOrigin = p` for every point p. -/
theorem C9_identity_at_construction :
    initState.scale = 1 ∧ initState.position = ⟨0, 0⟩
    ∧ initState.screen_position = ⟨0, 0⟩
    ∧ ∀ p : vec2, screenToCanvas initState p = p.sub initState.screen_position
        ∧ screenToCanvas initState p = p := by
  refine ⟨rfl, rfl, rfl, fun p => ⟨?_, ?_⟩⟩ <;>
    cases p <;>
    simp [screenToCanvas, initState, vec2.sub, vec2.scale]

/-- Claim C4: each drag-move event with deltas (dx, dy) translates the pan
offset by exactly (dx, dy); in particular applying drag-deltas (3,4) then
(-1,2) yields the starting offset plus (2,6). -/
theorem C4_pan_accumulation :
    (∀ (st : ICState) (dx dy : ℚ),
        (dragMove st dx dy).position = ⟨st.position.x + dx, st.position.y + dy⟩)
    ∧ ∀ st : ICState, (dragMove (dragMove st 3 4) (-1) 2).position
        = ⟨st.position.x + 2, st.position.y + 6⟩ := by
  refine ⟨fun st dx dy => rfl, fun st => ?_⟩
  simp only [dragMove, vec2.translate]
  exact congrArg₂ vec2.mk (by ring) (by ring)

/-- Claim C10: the cursor field does not retain the pointer's screen position;
after a pointermove at (cx, cy) it holds `screenToCanvas((cx, cy))`, and after
a wheel event at anchor (cx, cy) it holds the pre-zoom canvas anchor scaled
componentwise by (oldScale - newScale). -/
theorem C10_cursor_overwritten :
    (∀ (st : ICState) (cx cy : ℚ),
        (pointerMove st cx cy).cursor = screenToCanvas st ⟨cx, cy⟩)
    ∧ ∀ (st : ICState) (deltaY cx cy : ℚ),
        (wheelStep st deltaY cx cy).cursor
          = (screenToCanvas st ⟨cx, cy⟩).scale (st.scale - wheelNewScale st deltaY) :=
  ⟨fun _ _ _ => rfl, fun _ _ _ _ => rfl⟩

/-- Claim C7: a drag-start whose target is not the viewport itself is vetoed:
the gesture is not active, no move deltas are applied, and the state — scale,
pan offset, screen origin and all other fields — is unchanged. -/
theorem C7_drag_veto (st : ICState) (boundsLeft boundsTop : ℚ)
    (moves : List (ℚ × ℚ)) :
    runDrag st false boundsLeft boundsTop moves = st
    ∧ (dragStart st false boundsLeft boundsTop).2 = false :=
  ⟨rfl, rfl⟩

/-- Claim C5 as stated is false: a wheel event with `deltaY = 0` is not a
no-op on the transform state — at the freshly constructed state it changes
the scale (the ternary sends `deltaY = 0` down the zoom-in branch). -/
theorem C5_counterexample :
    (wheelStep initState 0 0 0).scale ≠ initState.scale := by
  norm_num [wheelStep, wheelNewScale, initState]

/-- Claim C5, amended: a wheel event with `deltaY = 0` takes the zoom-in
branch — the scale becomes `max(0.1, scale * zoomFactor)` and the pan offset
receives the corresponding zoom-to-cursor correction, exactly as for a
negative-delta event. -/
theorem C5_zero_delta_amended (st : ICState) (cx cy : ℚ) :
    (wheelStep st 0 cx cy).scale = max (1/10) (st.scale * st.zoomFactor)
    ∧ (wheelStep st 0 cx cy).position
      = st.position.add ((screenToCanvas st ⟨cx, cy⟩).scale
          (st.scale - max (1/10) (st.scale * st.zoomFactor))) := by
  constructor <;> simp [wheelStep, wheelNewScale, vec2.set]

/-- Claim C6: the wheel handler computes
`direction = deltaY > 0 ? 1/zoomFactor : zoomFactor`, and in the scenario of
a viewport mounted with bounding box {left:50, top:20} at scale 1 and zoom
factor 1.1, a wheel event with `deltaY = -100` at cursor (150,120) makes the
scale 1.1 and leaves `screenToCanvas((150,120))` unchanged. -/
theorem C6_direction_and_scenario :
    (∀ (st : ICState) (deltaY cx cy : ℚ),
        (wheelStep st deltaY cx cy).scale
          = max (1/10) (st.scale * (if deltaY > 0 then 1 / st.zoomFactor else st.zoomFactor)))
    ∧ ((wheelStep (connectedCallback initState 50 20 800 600) (-100) 150 120).scale = 11/10
        ∧ screenToCanvas (wheelStep (connectedCallback initState 50 20 800 600) (-100) 150 120)
            ⟨150, 120⟩
          = screenToCanvas (connectedCallback initState 50 20 800 600) ⟨150, 120⟩) := by
  refine ⟨fun _ _ _ _ => rfl, ?_, ?_⟩ <;>
    norm_num [wheelStep, wheelNewScale, screenToCanvas, connectedCallback, initState,
      vec2.set, vec2.sub, vec2.add, vec2.scale]

end InfiniteCanvas

namespace InfiniteCanvas

/-- Claim C1 (settled as a code bug): the round trip
`canvasToScreen(screenToCanvas(p))` cannot return p, because the source's
`canvasToScreen` dereferences `this.screen_position`, which is `undefined`
(the field lives at `this.__props.screen_position`): the conversion yields no
screen point at all — here evaluated at the identity state with scale 1 > 0
and p = (3,5), where the spec-corrected mapping does return p, and shown to
yield no point at every state and input. -/
theorem C1_roundtrip_bug :
    canvasToScreen initState (screenToCanvas initState ⟨3, 5⟩) = none
    ∧ canvasToScreen_fixed initState (screenToCanvas initState ⟨3, 5⟩) = ⟨3, 5⟩
    ∧ ∀ (st : ICState) (p : vec2), canvasToScreen st (screenToCanvas st p) = none := by
  refine ⟨rfl, ?_, fun st p => rfl⟩
  norm_num [canvasToScreen_fixed, screenToCanvas, initState,
    vec2.sub, vec2.add, vec2.scale]

/-- Claim C2: zoom-to-cursor invariance — for any state with positive scale,
after one wheel step (the clamped case included) the canvas point under the
event's screen position is unchanged: `screenToCanvas(a)` agrees before and
after the zoom. -/
theorem C2_zoom_to_cursor (st : ICState) (deltaY clientX clientY : ℚ)
    (h : 0 < st.scale) :
    screenToCanvas (wheelStep st deltaY clientX clientY) ⟨clientX, clientY⟩
      = screenToCanvas st ⟨clientX, clientY⟩ := by
  have hs : st.scale ≠ 0 := ne_of_gt h
  have hn : wheelNewScale st deltaY ≠ 0 :=
    ne_of_gt (lt_of_lt_of_le (by norm_num) (le_max_left _ _))
  simp only [wheelStep, screenToCanvas, vec2.sub, vec2.scale, vec2.add, vec2.set,
    vec2.mk.injEq]
  constructor <;> field_simp <;> ring

theorem C2_zoom_to_cursor_witness :
    0 < initState.scale
    ∧ screenToCanvas (wheelStep initState 5 7 9) ⟨7, 9⟩
        = screenToCanvas initState ⟨7, 9⟩ :=
  ⟨by norm_num [initState], C2_zoom_to_cursor initState 5 7 9 (by norm_num [initState])⟩

/-- One zoom-out wheel event (`deltaY = 1 > 0`) with the pointer at (0,0). -/
def zoomOutStep (st : ICState) : ICState := wheelStep st 1 0 0

lemma zoomOutStep_scale (st : ICState) :
    (zoomOutStep st).scale = max (1/10) (st.scale * (1 / st.zoomFactor)) := by
  norm_num [zoomOutStep, wheelStep, wheelNewScale]

lemma zoomOutStep_zoomFactor (st : ICState) :
    (zoomOutStep st).zoomFactor = st.zoomFactor := rfl

lemma zoomOut_iterate_bound (n : ℕ) :
    (zoomOutStep^[n] initState).zoomFactor = 11/10
    ∧ (zoomOutStep^[n] initState).scale ≤ max (1/10) ((10/11 : ℚ) ^ n) := by
  induction n with
  | zero =>
    refine ⟨rfl, ?_⟩
    norm_num [initState]
  | succ n ih =>
    obtain ⟨hzf, hsc⟩ := ih
    rw [Function.iterate_succ_apply']
    refine ⟨by rw [zoomOutStep_zoomFactor, hzf], ?_⟩
    rw [zoomOutStep_scale, hzf]
    have hr : (1 / (11/10 : ℚ)) = 10/11 := by norm_num
    rw [hr]
    have h1 : (zoomOutStep^[n] initState).scale * (10/11 : ℚ)
        ≤ max (1/10) ((10/11 : ℚ) ^ n) * (10/11) :=
      mul_le_mul_of_nonneg_right hsc (by norm_num)
    refine max_le (le_max_left _ _) (le_trans h1 ?_)
    rw [max_mul_of_nonneg _ _ (by norm_num : (0:ℚ) ≤ 10/11)]
    refine max_le (le_trans (by norm_num) (le_max_left (1/10 : ℚ) _)) ?_
    rw [← pow_succ]
    exact le_max_right _ _

/-- Claim C3: scale floor — every wheel step leaves the scale at or above
0.1 (each step stores `max(0.1, scale * direction)`), and from the fresh
state (scale 1, zoomFactor 1.1) two hundred zoom-out steps land exactly on
scale 0.1, not below it. -/
theorem C3_scale_floor :
    (∀ (st : ICState) (deltaY clientX clientY : ℚ),
        1/10 ≤ (wheelStep st deltaY clientX clientY).scale)
    ∧ (zoomOutStep^[200] initState).scale = 1/10 := by
  refine ⟨fun st deltaY cx cy => le_max_left _ _, ?_⟩
  have hup : (zoomOutStep^[200] initState).scale ≤ 1/10 := by
    refine le_trans (zoomOut_iterate_bound 200).2 ?_
    have h200 : ((10:ℚ)/11) ^ 200 ≤ 1/10 := by norm_num
    exact max_le (le_refl _) h200
  have hlow : (1:ℚ)/10 ≤ (zoomOutStep^[200] initState).scale := by
    have hsplit : zoomOutStep^[200] initState
        = zoomOutStep (zoomOutStep^[199] initState) :=
      Function.iterate_succ_apply' zoomOutStep 199 initState
    rw [hsplit, zoomOutStep_scale]
    exact le_max_left _ _
  linarith

/-- Claim C8 as stated is false in its "only under scale > 0" clause: at the
state reached through the public setter with value -1, the screen-to-canvas
division is well-defined — the conversion is injective — although the scale
is not positive. -/
theorem C8_counterexample :
    Function.Injective (screenToCanvas (setScale initState (-1)))
    ∧ ¬ (0 < (setScale initState (-1)).scale) := by
  constructor
  · intro p q hpq
    cases p; cases q
    simp only [screenToCanvas, setScale, initState, vec2.sub, vec2.scale,
      vec2.mk.injEq] at hpq
    obtain ⟨h1, h2⟩ := hpq
    norm_num at h1 h2
    exact congrArg₂ vec2.mk h1 h2
  · norm_num [setScale, initState]

/-- Claim C8, amended: the scale setter stores every value raw — zero and
negatives included, with no clamping or validation — and the unguarded
screen-to-canvas division is well-defined (the conversion is injective)
precisely when scale ≠ 0: positivity is sufficient but not necessary, and
the division-by-zero state reached through `setScale 0` degenerates the
conversion. -/
theorem C8_raw_setter_amended (st : ICState) (value : ℚ) :
    (setScale st value).scale = value
    ∧ (Function.Injective (screenToCanvas st) ↔ st.scale ≠ 0)
    ∧ ¬ Function.Injective (screenToCanvas (setScale st 0)) := by
  refine ⟨rfl, ⟨fun hInj => ?_, fun hne => ?_⟩, fun hInj => ?_⟩
  · intro h0
    have h01 : screenToCanvas st ⟨0, 0⟩ = screenToCanvas st ⟨1, 0⟩ := by
      simp [screenToCanvas, h0, vec2.sub, vec2.scale]
    have heq := hInj h01
    injection heq with hx hy
    exact zero_ne_one hx
  · intro p q hpq
    cases p; cases q
    simp only [screenToCanvas, vec2.sub, vec2.scale, vec2.mk.injEq] at hpq
    obtain ⟨h1, h2⟩ := hpq
    have hs : (1 : ℚ) / st.scale ≠ 0 := one_div_ne_zero hne
    have hx := mul_right_cancel₀ hs h1
    have hy := mul_right_cancel₀ hs h2
    exact congrArg₂ vec2.mk (by linarith) (by linarith)
  · have h01 : screenToCanvas (setScale st 0) ⟨0, 0⟩
        = screenToCanvas (setScale st 0) ⟨1, 0⟩ := by
      simp [screenToCanvas, setScale, vec2.sub, vec2.scale]
    have heq := hInj h01
    injection heq with hx hy
    exact zero_ne_one hx

end InfiniteCanvas
